import Mathlib

/-!
Verification of the signed message envelope protocol of
`monitoring_service/messages/message.py` (raiden-services).

The Python code serializes messages with `json.dumps` and parses them with
`json.loads`.  We model the JSON values handled by the code as an inductive
type `Json` (numbers are modelled at integral granularity, which covers every
number the envelope layer produces apart from the fractional part of the
timestamp), give an executable serializer `dumps` matching `json.dumps` with
its default separators `", "` and `": "` and its string escaping, and an
executable parser `parse` matching the strict mode of `json.loads` on the
fragment of JSON the envelope layer exercises.  Python `dict`s are modelled
as association lists whose lookups take the last binding, matching the
overwrite semantics of `dict` construction.
-/

namespace MonitoringService

/-- JSON values, as produced and consumed by `json.dumps` / `json.loads`
in `message.py`.  Objects are association lists in insertion order. -/
inductive Json where
  | null : Json
  | bool : Bool → Json
  | num : Nat → Json
  | str : String → Json
  | arr : List Json → Json
  | obj : List (String × Json) → Json

/-- Python `dict` lookup on an association list: the last binding wins,
matching how `json.loads` builds a `dict` (later duplicate keys overwrite
earlier ones). -/
def lookupLast {α : Type} : List (String × α) → String → Option α
  | [], _ => none
  | (k', v) :: rest, k =>
    match lookupLast rest k with
    | some r => some r
    | none => if k' = k then some v else none

/-- Python `dict` assignment `d[k] = v`: replaces the binding in place when
the key is present, appends it otherwise. -/
def dictSet {α : Type} (kvs : List (String × α)) (k : String) (v : α) :
    List (String × α) :=
  if kvs.any (fun p => p.1 = k) then
    kvs.map (fun p => if p.1 = k then (k, v) else p)
  else kvs ++ [(k, v)]

/-- `j[k]` on a JSON value: a lookup when `j` is an object. -/
def jsonGet (j : Json) (k : String) : Option Json :=
  match j with
  | .obj kvs => lookupLast kvs k
  | _ => none

/-- Whether a JSON value is a string (`isinstance(v, str)`). -/
def isStr : Json → Bool
  | .str _ => true
  | _ => false

/-- Decimal digit character. -/
def digitChar (d : Nat) : Char := Char.ofNat (48 + d)

/-- Decimal rendering of a natural number (fuel-indexed, so that it
computes by reduction). -/
def natDigitsAux : Nat → Nat → List Char
  | 0, _ => []
  | f + 1, n =>
    if n < 10 then [digitChar n]
    else natDigitsAux f (n / 10) ++ [digitChar (n % 10)]

/-- Decimal rendering of a natural number, as `json.dumps` prints an
integral number. -/
def natDigits (n : Nat) : List Char := natDigitsAux (n + 1) n

/-- Hexadecimal digit character (lowercase), as in `\uXXXX` escapes. -/
def hexChar (d : Nat) : Char :=
  if d < 10 then Char.ofNat (48 + d) else Char.ofNat (87 + d)

/-- `json.dumps` escaping of a single character inside a string literal:
quote and backslash get a two-character escape, the common control
characters get their short escapes, the remaining control characters get a
`\u00XX` escape, and every other character is emitted literally. -/
def escChar (c : Char) : List Char :=
  if c = '"' then ['\\', '"']
  else if c = '\\' then ['\\', '\\']
  else if c = '\n' then ['\\', 'n']
  else if c = '\t' then ['\\', 't']
  else if c = '\r' then ['\\', 'r']
  else if c.toNat = 8 then ['\\', 'b']
  else if c.toNat = 12 then ['\\', 'f']
  else if c.toNat < 32 then
    ['\\', 'u', '0', '0', hexChar (c.toNat / 16), hexChar (c.toNat % 16)]
  else [c]

/-- Escaped body of a string literal. -/
def escapeL (s : List Char) : List Char := (s.map escChar).flatten

/-- A JSON string literal, quotes included. -/
def strLitL (s : String) : List Char := '"' :: (escapeL s.data ++ ['"'])

mutual

/-- `json.dumps` with its default separators, as a character list. -/
def dumpsL : Json → List Char
  | .num n => natDigits n
  | .str s => strLitL s
  | .null => 'n' :: ['u', 'l', 'l']
  | .bool true => 't' :: ['r', 'u', 'e']
  | .bool false => 'f' :: ['a', 'l', 's', 'e']
  | .arr [] => '[' :: [']']
  | .arr (x :: xs) => '[' :: (dumpsItems (x :: xs) ++ [']'])
  | .obj [] => '{' :: ['}']
  | .obj (p :: ps) => '{' :: (dumpsMembers (p :: ps) ++ ['}'])

/-- Array items joined by `", "`. -/
def dumpsItems : List Json → List Char
  | [] => []
  | [x] => dumpsL x
  | x :: y :: xs => dumpsL x ++ ',' :: ' ' :: dumpsItems (y :: xs)

/-- Object members `"key": value` joined by `", "`. -/
def dumpsMembers : List (String × Json) → List Char
  | [] => []
  | [(k, v)] => strLitL k ++ ':' :: ' ' :: dumpsL v
  | (k, v) :: q :: ps =>
    strLitL k ++ ':' :: ' ' :: dumpsL v ++ ',' :: ' ' :: dumpsMembers (q :: ps)

end

/-- `json.dumps`. -/
def dumps (j : Json) : String := ⟨dumpsL j⟩

/-- The whitespace characters skipped by `json.loads`. -/
def isWs (c : Char) : Bool := c = ' ' || c = '\t' || c = '\n' || c = '\r'

/-- ASCII decimal digit test. -/
def isDigitC (c : Char) : Bool := 48 ≤ c.toNat && c.toNat ≤ 57

/-- The list does not start with a decimal digit (so a number token ending
right before it cannot absorb its head). -/
def noDigitHead : List Char → Bool
  | [] => true
  | c :: _ => !(isDigitC c)

/-- Skip leading whitespace. -/
def skipWs : List Char → List Char
  | [] => []
  | c :: cs => if isWs c then skipWs cs else c :: cs

/-- Value of a hexadecimal digit character. -/
def hexVal (c : Char) : Option Nat :=
  if 48 ≤ c.toNat && c.toNat ≤ 57 then some (c.toNat - 48)
  else if 97 ≤ c.toNat && c.toNat ≤ 102 then some (c.toNat - 87)
  else if 65 ≤ c.toNat && c.toNat ≤ 70 then some (c.toNat - 55)
  else none

/-- Accumulate a run of decimal digits into a natural number. -/
def parseNatAux (acc : Nat) : List Char → Nat × List Char
  | [] => (acc, [])
  | c :: cs =>
    if isDigitC c then parseNatAux (acc * 10 + (c.toNat - 48)) cs
    else (acc, c :: cs)

/-- Body of a JSON string literal, after the opening quote: returns the
decoded characters and the input after the closing quote.  Strict mode:
literal control characters are rejected, unknown escapes are rejected. -/
def parseStrAux (acc : List Char) : List Char → Option (List Char × List Char)
  | [] => none
  | c :: cs =>
    if c = '"' then some (acc.reverse, cs)
    else if c = '\\' then
      match cs with
      | [] => none
      | e :: cs2 =>
        if e = '"' then parseStrAux ('"' :: acc) cs2
        else if e = '\\' then parseStrAux ('\\' :: acc) cs2
        else if e = '/' then parseStrAux ('/' :: acc) cs2
        else if e = 'n' then parseStrAux ('\n' :: acc) cs2
        else if e = 't' then parseStrAux ('\t' :: acc) cs2
        else if e = 'r' then parseStrAux ('\r' :: acc) cs2
        else if e = 'b' then parseStrAux (Char.ofNat 8 :: acc) cs2
        else if e = 'f' then parseStrAux (Char.ofNat 12 :: acc) cs2
        else if e = 'u' then
          match cs2 with
          | h1 :: h2 :: h3 :: h4 :: cs3 =>
            match hexVal h1, hexVal h2, hexVal h3, hexVal h4 with
            | some a, some b, some c3, some d =>
              parseStrAux (Char.ofNat (((a * 16 + b) * 16 + c3) * 16 + d) :: acc) cs3
            | _, _, _, _ => none
          | _ => none
        else none
    else if 32 ≤ c.toNat then parseStrAux (c :: acc) cs
    else none

/-- A JSON string literal body, decoded into a `String`. -/
def parseStr (cs : List Char) : Option (String × List Char) :=
  match parseStrAux [] cs with
  | some (l, rest) => some (⟨l⟩, rest)
  | none => none

mutual

/-- Parse one JSON value (fuel-indexed recursive descent, as `json.loads`
accepts it: optional leading whitespace, then a literal, number, string,
array or object). -/
def parseVal : Nat → List Char → Option (Json × List Char)
  | 0, _ => none
  | f + 1, cs =>
    match skipWs cs with
    | [] => none
    | c :: rest =>
      if isDigitC c then
        match parseNatAux 0 (c :: rest) with
        | (n, r) => some (.num n, r)
      else
        match c, rest with
        | 'n', 'u' :: 'l' :: 'l' :: r => some (.null, r)
        | 't', 'r' :: 'u' :: 'e' :: r => some (.bool true, r)
        | 'f', 'a' :: 'l' :: 's' :: 'e' :: r => some (.bool false, r)
        | '"', r =>
          match parseStr r with
          | some (s, r2) => some (.str s, r2)
          | none => none
        | '[', r =>
          match skipWs r with
          | ']' :: r2 => some (.arr [], r2)
          | cs2 => parseItems f cs2
        | '{', r =>
          match skipWs r with
          | '}' :: r2 => some (.obj [], r2)
          | cs2 => parseObjMembers f cs2
        | _, _ => none

/-- Parse the elements of a non-empty array, including the closing `]`. -/
def parseItems : Nat → List Char → Option (Json × List Char)
  | 0, _ => none
  | f + 1, cs =>
    match parseVal f cs with
    | none => none
    | some (j, r) =>
      match skipWs r with
      | ',' :: r2 =>
        match parseItems f r2 with
        | some (.arr xs, r3) => some (.arr (j :: xs), r3)
        | _ => none
      | ']' :: r2 => some (.arr [j], r2)
      | _ => none

/-- Parse the members of a non-empty object, including the closing `}`. -/
def parseObjMembers : Nat → List Char → Option (Json × List Char)
  | 0, _ => none
  | f + 1, cs =>
    match skipWs cs with
    | '"' :: r =>
      match parseStr r with
      | none => none
      | some (k, r1) =>
        match skipWs r1 with
        | ':' :: r2 =>
          match parseVal f r2 with
          | none => none
          | some (v, r3) =>
            match skipWs r3 with
            | ',' :: r4 =>
              match parseObjMembers f r4 with
              | some (.obj ps, r5) => some (.obj ((k, v) :: ps), r5)
              | _ => none
            | '}' :: r4 => some (.obj [(k, v)], r4)
            | _ => none
        | _ => none
    | _ => none

end

/-- `json.loads`: parse a whole string as one JSON value (with nothing but
whitespace after it). -/
def parse (s : String) : Option Json :=
  match parseVal (2 * s.data.length + 4) s.data with
  | some (j, rest) => if skipWs rest = [] then some j else none
  | none => none

/-! ### Digit and number lemmas -/

lemma digitChar_toNat {d : Nat} (h : d < 10) : (digitChar d).toNat = 48 + d := by
  interval_cases d <;> decide

lemma isDigitC_digitChar {d : Nat} (h : d < 10) : isDigitC (digitChar d) = true := by
  interval_cases d <;> decide

lemma natDigitsAux_fuel : ∀ f f' n, n < f → n < f' →
    natDigitsAux f n = natDigitsAux f' n := by
  intro f
  induction f with
  | zero => intro f' n h; omega
  | succ f ihf =>
    intro f' n h h'
    cases f' with
    | zero => omega
    | succ f' =>
      simp only [natDigitsAux]
      by_cases h10 : n < 10
      · simp [h10]
      · simp only [h10, if_neg, not_false_iff]
        have hd : n / 10 < n := Nat.div_lt_self (by omega) (by omega)
        rw [ihf f' (n / 10) (by omega) (by omega)]

lemma natDigits_unfold (n : Nat) :
    natDigits n = if n < 10 then [digitChar n]
      else natDigits (n / 10) ++ [digitChar (n % 10)] := by
  rw [natDigits, natDigits, natDigitsAux]
  by_cases h : n < 10
  · simp [h]
  · simp only [h, if_neg, not_false_iff]
    have hd : n / 10 < n := Nat.div_lt_self (by omega) (by omega)
    rw [natDigitsAux_fuel n (n / 10 + 1) (n / 10) (by omega) (by omega)]

lemma natDigits_digits : ∀ n, ∀ c ∈ natDigits n, isDigitC c = true := by
  intro n
  induction n using Nat.strong_induction_on with
  | _ n ih =>
    intro c hc
    rw [natDigits_unfold] at hc
    by_cases h : n < 10
    · rw [if_pos h] at hc
      simp only [List.mem_singleton] at hc
      subst hc
      exact isDigitC_digitChar h
    · rw [if_neg h] at hc
      simp only [List.mem_append, List.mem_singleton] at hc
      rcases hc with hc | hc
      · exact ih (n / 10) (Nat.div_lt_self (by omega) (by omega)) c hc
      · subst hc
        exact isDigitC_digitChar (Nat.mod_lt _ (by omega))

lemma natDigits_ne_nil (n : Nat) : natDigits n ≠ [] := by
  rw [natDigits_unfold]
  split <;> simp

lemma natDigits_cons (n : Nat) :
    ∃ c t, natDigits n = c :: t ∧ isDigitC c = true := by
  rcases h : natDigits n with _ | ⟨c, t⟩
  · exact absurd h (natDigits_ne_nil n)
  · exact ⟨c, t, rfl, natDigits_digits n c (by rw [h]; exact List.mem_cons_self _ _)⟩

lemma parseNatAux_digits :
    ∀ (ds : List Char), (∀ c ∈ ds, isDigitC c = true) →
    ∀ acc rest, noDigitHead rest = true →
    parseNatAux acc (ds ++ rest) =
      (ds.foldl (fun a c => a * 10 + (c.toNat - 48)) acc, rest) := by
  intro ds
  induction ds with
  | nil =>
    intro _ acc rest h
    cases rest with
    | nil => rfl
    | cons c cs =>
      simp only [noDigitHead, Bool.not_eq_true'] at h
      simp [parseNatAux, h]
  | cons c cs ih =>
    intro hall acc rest h
    have hc : isDigitC c = true := hall c (List.mem_cons_self _ _)
    simp only [List.cons_append, parseNatAux, hc, if_pos, List.foldl_cons]
    exact ih (fun x hx => hall x (List.mem_cons_of_mem _ hx)) _ rest h

lemma natDigits_foldl :
    ∀ n acc, (natDigits n).foldl (fun a c => a * 10 + (c.toNat - 48)) acc =
      acc * 10 ^ (natDigits n).length + n := by
  intro n
  induction n using Nat.strong_induction_on with
  | _ n ih =>
    intro acc
    rw [natDigits_unfold]
    by_cases h : n < 10
    · simp only [h, if_pos, List.foldl_cons, List.foldl_nil, List.length_cons,
        List.length_nil, pow_one, digitChar_toNat h]
      omega
    · simp only [h, if_neg, not_false_iff, List.foldl_append, List.foldl_cons,
        List.foldl_nil, List.length_append, List.length_cons, List.length_nil]
      rw [ih (n / 10) (Nat.div_lt_self (by omega) (by omega)) acc]
      rw [digitChar_toNat (Nat.mod_lt _ (by omega))]
      have hp : 10 ^ ((natDigits (n / 10)).length + (0 + 1)) =
          10 ^ (natDigits (n / 10)).length * 10 := by
        rw [Nat.zero_add, pow_succ]
      rw [hp]
      have hmul : (acc * 10 ^ (natDigits (n / 10)).length + n / 10) * 10 =
          acc * (10 ^ (natDigits (n / 10)).length * 10) + n / 10 * 10 := by ring
      omega

lemma parseNatAux_natDigits (n acc : Nat) (rest : List Char)
    (h : noDigitHead rest = true) :
    parseNatAux acc (natDigits n ++ rest) =
      (acc * 10 ^ (natDigits n).length + n, rest) := by
  rw [parseNatAux_digits _ (natDigits_digits n) _ _ h, natDigits_foldl]

lemma isWs_eq_false_of_digit {c : Char} (h : isDigitC c = true) :
    isWs c = false := by
  simp only [isWs, Bool.or_eq_false_iff, decide_eq_false_iff_not]
  refine ⟨⟨⟨?_, ?_⟩, ?_⟩, ?_⟩ <;> (rintro rfl; exact absurd h (by decide))

lemma ne_of_digit {c d : Char} (h : isDigitC c = true) (hd : isDigitC d = false) :
    c ≠ d := by
  rintro rfl
  rw [h] at hd
  cases hd

/-! ### String-escape round trip -/

lemma escapeL_cons (c : Char) (cs : List Char) :
    escapeL (c :: cs) = escChar c ++ escapeL cs := by
  simp [escapeL]

lemma hexVal_hexChar {d : Nat} (h : d < 16) : hexVal (hexChar d) = some d := by
  interval_cases d <;> decide

lemma char_ne_of_toNat {c d : Char} (h : c.toNat ≠ d.toNat) : c ≠ d :=
  fun e => h (by rw [e])

lemma parseStrAux_quote (acc cs : List Char) :
    parseStrAux acc ('"' :: cs) = some (acc.reverse, cs) := by
  conv_lhs => rw [parseStrAux.eq_def]
  simp +decide

lemma parseStrAux_escQuote (acc cs : List Char) :
    parseStrAux acc ('\\' :: '"' :: cs) = parseStrAux ('"' :: acc) cs := by
  conv_lhs => rw [parseStrAux.eq_def]
  simp +decide

lemma parseStrAux_escBackslash (acc cs : List Char) :
    parseStrAux acc ('\\' :: '\\' :: cs) = parseStrAux ('\\' :: acc) cs := by
  conv_lhs => rw [parseStrAux.eq_def]
  simp +decide

lemma parseStrAux_escN (acc cs : List Char) :
    parseStrAux acc ('\\' :: 'n' :: cs) = parseStrAux ('\n' :: acc) cs := by
  conv_lhs => rw [parseStrAux.eq_def]
  simp +decide

lemma parseStrAux_escT (acc cs : List Char) :
    parseStrAux acc ('\\' :: 't' :: cs) = parseStrAux ('\t' :: acc) cs := by
  conv_lhs => rw [parseStrAux.eq_def]
  simp +decide

lemma parseStrAux_escR (acc cs : List Char) :
    parseStrAux acc ('\\' :: 'r' :: cs) = parseStrAux ('\r' :: acc) cs := by
  conv_lhs => rw [parseStrAux.eq_def]
  simp +decide

lemma parseStrAux_escB (acc cs : List Char) :
    parseStrAux acc ('\\' :: 'b' :: cs) = parseStrAux (Char.ofNat 8 :: acc) cs := by
  conv_lhs => rw [parseStrAux.eq_def]
  simp +decide

lemma parseStrAux_escF (acc cs : List Char) :
    parseStrAux acc ('\\' :: 'f' :: cs) = parseStrAux (Char.ofNat 12 :: acc) cs := by
  conv_lhs => rw [parseStrAux.eq_def]
  simp +decide

lemma parseStrAux_escU (acc cs : List Char) {h3 h4 : Char} {a b : Nat}
    (hh3 : hexVal h3 = some a) (hh4 : hexVal h4 = some b) :
    parseStrAux acc ('\\' :: 'u' :: '0' :: '0' :: h3 :: h4 :: cs) =
      parseStrAux (Char.ofNat (a * 16 + b) :: acc) cs := by
  conv_lhs => rw [parseStrAux.eq_def]
  simp +decide [hh3, hh4, show hexVal '0' = some 0 from by decide]

lemma parseStrAux_lit (acc cs : List Char) {c : Char}
    (h1 : c ≠ '"') (h2 : c ≠ '\\') (h3 : 32 ≤ c.toNat) :
    parseStrAux acc (c :: cs) = parseStrAux (c :: acc) cs := by
  conv_lhs => rw [parseStrAux.eq_def]
  simp only [if_neg h1, if_neg h2, if_pos h3]

lemma parseStrAux_escape : ∀ (s : List Char) (acc rest : List Char),
    parseStrAux acc (escapeL s ++ '"' :: rest) = some (acc.reverse ++ s, rest) := by
  intro s
  induction s with
  | nil =>
    intro acc rest
    show parseStrAux acc (escapeL [] ++ '"' :: rest) = _
    rw [show escapeL [] = [] from rfl, List.nil_append, parseStrAux_quote]
    simp
  | cons c s ih =>
    intro acc rest
    rw [escapeL_cons, List.append_assoc]
    by_cases h1 : c = '"'
    · subst h1
      rw [show escChar '"' = ['\\', '"'] from by decide]
      simp only [List.cons_append, List.nil_append]
      rw [parseStrAux_escQuote, ih]
      simp
    by_cases h2 : c = '\\'
    · subst h2
      rw [show escChar '\\' = ['\\', '\\'] from by decide]
      simp only [List.cons_append, List.nil_append]
      rw [parseStrAux_escBackslash, ih]
      simp
    by_cases h3 : c = '\n'
    · subst h3
      rw [show escChar '\n' = ['\\', 'n'] from by decide]
      simp only [List.cons_append, List.nil_append]
      rw [parseStrAux_escN, ih]
      simp
    by_cases h4 : c = '\t'
    · subst h4
      rw [show escChar '\t' = ['\\', 't'] from by decide]
      simp only [List.cons_append, List.nil_append]
      rw [parseStrAux_escT, ih]
      simp
    by_cases h5 : c = '\r'
    · subst h5
      rw [show escChar '\r' = ['\\', 'r'] from by decide]
      simp only [List.cons_append, List.nil_append]
      rw [parseStrAux_escR, ih]
      simp
    by_cases h6 : c.toNat = 8
    · have hc : Char.ofNat 8 = c := by
        rw [← h6, Char.ofNat_toNat]
      have e6 : escChar c = ['\\', 'b'] := by
        simp [escChar, h1, h2, h3, h4, h5, h6]
      rw [e6]
      simp only [List.cons_append, List.nil_append]
      rw [parseStrAux_escB, hc, ih]
      simp
    by_cases h7 : c.toNat = 12
    · have hc : Char.ofNat 12 = c := by
        rw [← h7, Char.ofNat_toNat]
      have e7 : escChar c = ['\\', 'f'] := by
        simp [escChar, h1, h2, h3, h4, h5, h6, h7]
      rw [e7]
      simp only [List.cons_append, List.nil_append]
      rw [parseStrAux_escF, hc, ih]
      simp
    by_cases h8 : c.toNat < 32
    · have e8 : escChar c =
          ['\\', 'u', '0', '0', hexChar (c.toNat / 16), hexChar (c.toNat % 16)] := by
        simp [escChar, h1, h2, h3, h4, h5, h6, h7, h8]
      rw [e8]
      have hhi : hexVal (hexChar (c.toNat / 16)) = some (c.toNat / 16) :=
        hexVal_hexChar (by omega)
      have hlo : hexVal (hexChar (c.toNat % 16)) = some (c.toNat % 16) :=
        hexVal_hexChar (by omega)
      simp only [List.cons_append, List.nil_append]
      rw [parseStrAux_escU _ _ hhi hlo]
      have hval : c.toNat / 16 * 16 + c.toNat % 16 = c.toNat := by omega
      rw [hval, Char.ofNat_toNat, ih]
      simp
    · have e9 : escChar c = [c] := by
        simp [escChar, h1, h2, h3, h4, h5, h6, h7, h8]
      rw [e9]
      simp only [List.cons_append, List.nil_append]
      rw [parseStrAux_lit _ _ h1 h2 (by omega), ih]
      simp

lemma parseStr_strLit (s : String) (rest : List Char) :
    parseStr (escapeL s.data ++ '"' :: rest) = some (s, rest) := by
  rw [parseStr, parseStrAux_escape]
  rfl

/-! ### Whitespace and shape lemmas -/

lemma skipWs_cons_of {c : Char} (h : isWs c = false) (cs : List Char) :
    skipWs (c :: cs) = c :: cs := by
  simp [skipWs, h]

lemma skipWs_space (cs : List Char) : skipWs (' ' :: cs) = skipWs cs := by
  simp +decide [skipWs]

lemma parseVal_space (f : Nat) (cs : List Char) :
    parseVal f (' ' :: cs) = parseVal f cs := by
  cases f with
  | zero => rfl
  | succ f =>
    simp only [parseVal]
    rw [skipWs_space]

lemma parseItems_space (f : Nat) (cs : List Char) :
    parseItems f (' ' :: cs) = parseItems f cs := by
  cases f with
  | zero => rfl
  | succ f =>
    simp only [parseItems]
    rw [parseVal_space]

lemma parseObjMembers_space (f : Nat) (cs : List Char) :
    parseObjMembers f (' ' :: cs) = parseObjMembers f cs := by
  cases f with
  | zero => rfl
  | succ f =>
    simp only [parseObjMembers]
    rw [skipWs_space]

lemma noDigitHead_of {c : Char} (h : isDigitC c = false) (r : List Char) :
    noDigitHead (c :: r) = true := by
  simp [noDigitHead, h]

lemma dumpsL_head (j : Json) :
    ∃ c t, dumpsL j = c :: t ∧ isWs c = false ∧ c ≠ ']' := by
  cases j with
  | null => exact ⟨'n', _, rfl, by decide, by decide⟩
  | bool b =>
    cases b with
    | true => exact ⟨'t', _, rfl, by decide, by decide⟩
    | false => exact ⟨'f', _, rfl, by decide, by decide⟩
  | num n =>
    obtain ⟨c, t, h, hd⟩ := natDigits_cons n
    exact ⟨c, t, by simp only [dumpsL]; exact h,
      isWs_eq_false_of_digit hd, ne_of_digit hd (by decide)⟩
  | str s => exact ⟨'"', _, rfl, by decide, by decide⟩
  | arr xs =>
    cases xs with
    | nil => exact ⟨'[', _, rfl, by decide, by decide⟩
    | cons x xs => exact ⟨'[', _, rfl, by decide, by decide⟩
  | obj kvs =>
    cases kvs with
    | nil => exact ⟨'{', _, rfl, by decide, by decide⟩
    | cons p ps => exact ⟨'{', _, rfl, by decide, by decide⟩

lemma dumpsItems_eq (x : Json) (xs : List Json) :
    ∃ T, dumpsItems (x :: xs) = dumpsL x ++ T := by
  cases xs with
  | nil => exact ⟨[], by simp [dumpsItems]⟩
  | cons y ys => exact ⟨',' :: ' ' :: dumpsItems (y :: ys), by simp [dumpsItems]⟩

/-! ### Parser fuel accounting -/

mutual

/-- Fuel needed by `parseVal` to parse the output of `dumpsL`. -/
def weight : Json → Nat
  | .null => 1
  | .bool _ => 1
  | .num _ => 1
  | .str _ => 1
  | .arr xs => 2 + weightItems xs
  | .obj kvs => 2 + weightMembers kvs

/-- Fuel needed by `parseItems`. -/
def weightItems : List Json → Nat
  | [] => 0
  | x :: xs => weight x + 1 + weightItems xs

/-- Fuel needed by `parseObjMembers`. -/
def weightMembers : List (String × Json) → Nat
  | [] => 0
  | (_, v) :: ps => weight v + 1 + weightMembers ps

end

lemma weight_pos (j : Json) : 1 ≤ weight j := by
  cases j <;> simp [weight] <;> omega


lemma dumpsMembers_head (k : String) (v : Json) (ps : List (String × Json)) :
    ∃ R, dumpsMembers ((k, v) :: ps) = '"' :: R := by
  cases ps <;> simp [dumpsMembers, strLitL]

lemma parse_ok : ∀ f : Nat,
    (∀ j rest, weight j ≤ f → noDigitHead rest = true →
      parseVal f (dumpsL j ++ rest) = some (j, rest)) ∧
    (∀ x xs rest, weightItems (x :: xs) ≤ f →
      parseItems f (dumpsItems (x :: xs) ++ ']' :: rest) =
        some (.arr (x :: xs), rest)) ∧
    (∀ k v ps rest, weightMembers ((k, v) :: ps) ≤ f →
      parseObjMembers f (dumpsMembers ((k, v) :: ps) ++ '}' :: rest) =
        some (.obj ((k, v) :: ps), rest)) := by
  intro f
  induction f with
  | zero =>
    refine ⟨?_, ?_, ?_⟩
    · intro j rest hw _
      exact absurd hw (by have := weight_pos j; omega)
    · intro x xs rest hw
      have := weight_pos x
      simp only [weightItems] at hw
      omega
    · intro k v ps rest hw
      have := weight_pos v
      simp only [weightMembers] at hw
      omega
  | succ f ih =>
    obtain ⟨ih1, ih2, ih3⟩ := ih
    refine ⟨?_, ?_, ?_⟩
    · -- parseVal
      intro j rest hw hrest
      cases j with
      | null =>
        simp only [dumpsL, List.cons_append, List.nil_append, parseVal]
        rw [skipWs_cons_of (by decide)]
        simp +decide
      | bool b =>
        cases b <;>
          (simp only [dumpsL, List.cons_append, List.nil_append, parseVal]
           rw [skipWs_cons_of (by decide)]
           simp +decide)
      | num n =>
        obtain ⟨c, t, hnd, hdig⟩ := natDigits_cons n
        have hshape : dumpsL (.num n) ++ rest = c :: (t ++ rest) := by
          simp only [dumpsL]
          rw [hnd]
          simp
        rw [hshape, parseVal.eq_2, skipWs_cons_of (isWs_eq_false_of_digit hdig)]
        have hback : c :: (t ++ rest) = natDigits n ++ rest := by
          rw [hnd]
          simp
        simp only [hdig, if_pos, hback, parseNatAux_natDigits n 0 rest hrest]
        simp
      | str s =>
        have hshape : dumpsL (.str s) ++ rest =
            '"' :: (escapeL s.data ++ '"' :: rest) := by
          simp [dumpsL, strLitL]
        rw [hshape, parseVal.eq_2, skipWs_cons_of (by decide)]
        simp +decide [parseStr_strLit s rest]
      | arr xs =>
        cases xs with
        | nil =>
          simp only [dumpsL, List.cons_append, List.nil_append, parseVal]
          rw [skipWs_cons_of (by decide)]
          simp +decide [skipWs_cons_of (show isWs ']' = false from by decide)]
        | cons x xs =>
          obtain ⟨T, hT⟩ := dumpsItems_eq x xs
          obtain ⟨c, t, hx, hws, hne⟩ := dumpsL_head x
          have hshape : dumpsL (.arr (x :: xs)) ++ rest =
              '[' :: (dumpsItems (x :: xs) ++ ']' :: rest) := by
            simp [dumpsL]
          have hinner : dumpsItems (x :: xs) ++ ']' :: rest =
              c :: (t ++ T ++ ']' :: rest) := by
            rw [hT, hx]
            simp
          rw [hshape, parseVal.eq_2, skipWs_cons_of (by decide)]
          have hwi : weightItems (x :: xs) ≤ f := by
            simp only [weight] at hw
            omega
          have hres := ih2 x xs rest hwi
          simp +decide only []
          rw [hinner, skipWs_cons_of hws]
          rw [hinner, List.append_assoc] at hres
          simp [hne, hres]
      | obj kvs =>
        cases kvs with
        | nil =>
          simp only [dumpsL, List.cons_append, List.nil_append, parseVal]
          rw [skipWs_cons_of (by decide)]
          simp +decide [skipWs_cons_of (show isWs '}' = false from by decide)]
        | cons p ps =>
          obtain ⟨k, v⟩ := p
          obtain ⟨R, hR⟩ := dumpsMembers_head k v ps
          have hshape : dumpsL (.obj ((k, v) :: ps)) ++ rest =
              '{' :: (dumpsMembers ((k, v) :: ps) ++ '}' :: rest) := by
            simp [dumpsL]
          have hinner : dumpsMembers ((k, v) :: ps) ++ '}' :: rest =
              '"' :: (R ++ '}' :: rest) := by
            rw [hR]
            simp
          rw [hshape, parseVal.eq_2, skipWs_cons_of (by decide)]
          have hwm : weightMembers ((k, v) :: ps) ≤ f := by
            simp only [weight] at hw
            omega
          have hres := ih3 k v ps rest hwm
          simp +decide only []
          rw [hinner, skipWs_cons_of (by decide)]
          rw [hinner] at hres
          simp +decide [hres]
    · -- parseItems
      intro x xs rest hw
      cases xs with
      | nil =>
        have hv : weight x ≤ f := by
          simp only [weightItems] at hw
          omega
        rw [parseItems.eq_2, show dumpsItems [x] = dumpsL x from by simp [dumpsItems]]
        rw [ih1 x (']' :: rest) hv (noDigitHead_of (by decide) rest)]
        simp +decide [skipWs_cons_of (show isWs ']' = false from by decide)]
      | cons y ys =>
        have hpos := weight_pos x
        have hpos2 := weight_pos y
        have hv : weight x ≤ f := by
          simp only [weightItems] at hw
          omega
        have hwi : weightItems (y :: ys) ≤ f := by
          simp only [weightItems] at hw ⊢
          omega
        have hsh : dumpsItems (x :: y :: ys) ++ ']' :: rest =
            dumpsL x ++ (',' :: ' ' :: (dumpsItems (y :: ys) ++ ']' :: rest)) := by
          simp [dumpsItems]
        rw [parseItems.eq_2, hsh]
        rw [ih1 x _ hv (noDigitHead_of (by decide) _)]
        simp +decide only [skipWs_cons_of (show isWs ',' = false from by decide),
          parseItems_space, ih2 y ys rest hwi]
    · -- parseObjMembers
      intro k v ps rest hw
      cases ps with
      | nil =>
        have hv : weight v ≤ f := by
          simp only [weightMembers] at hw
          omega
        have hsh : dumpsMembers [(k, v)] ++ '}' :: rest =
            '"' :: (escapeL k.data ++ '"' ::
              (':' :: ' ' :: (dumpsL v ++ '}' :: rest))) := by
          simp [dumpsMembers, strLitL]
        have hval := ih1 v ('}' :: rest) hv (noDigitHead_of (by decide) rest)
        rw [parseObjMembers.eq_2, hsh, skipWs_cons_of (by decide)]
        simp +decide only [parseStr_strLit,
          skipWs_cons_of (show isWs ':' = false from by decide),
          skipWs_cons_of (show isWs '}' = false from by decide),
          parseVal_space, hval]
      | cons q qs =>
        obtain ⟨k2, v2⟩ := q
        have hpos := weight_pos v
        have hpos2 := weight_pos v2
        have hv : weight v ≤ f := by
          simp only [weightMembers] at hw
          omega
        have hwm : weightMembers ((k2, v2) :: qs) ≤ f := by
          simp only [weightMembers] at hw ⊢
          omega
        have hsh : dumpsMembers ((k, v) :: (k2, v2) :: qs) ++ '}' :: rest =
            '"' :: (escapeL k.data ++ '"' ::
              (':' :: ' ' :: (dumpsL v ++ ',' :: ' ' ::
                (dumpsMembers ((k2, v2) :: qs) ++ '}' :: rest)))) := by
          simp [dumpsMembers, strLitL]
        have hval := ih1 v (',' :: ' ' :: (dumpsMembers ((k2, v2) :: qs) ++ '}' :: rest))
          hv (noDigitHead_of (by decide) _)
        have hrec := ih3 k2 v2 qs rest hwm
        rw [parseObjMembers.eq_2, hsh, skipWs_cons_of (by decide)]
        simp +decide only [parseStr_strLit,
          skipWs_cons_of (show isWs ':' = false from by decide),
          skipWs_cons_of (show isWs ',' = false from by decide),
          parseVal_space, hval, parseObjMembers_space, hrec]

/-! ### Induction over `Json` through the nested lists -/

lemma Json.rec_mem {P : Json → Prop}
    (hnull : P .null) (hbool : ∀ b, P (.bool b)) (hnum : ∀ n, P (.num n))
    (hstr : ∀ s, P (.str s))
    (harr : ∀ xs, (∀ x ∈ xs, P x) → P (.arr xs))
    (hobj : ∀ kvs, (∀ p ∈ kvs, P p.2) → P (.obj kvs)) : ∀ j, P j := by
  have key : ∀ n (j : Json), sizeOf j ≤ n → P j := by
    intro n
    induction n with
    | zero =>
      intro j h
      cases j <;> simp at h
    | succ n ihn =>
      intro j hle
      cases j with
      | null => exact hnull
      | bool b => exact hbool b
      | num m => exact hnum m
      | str s => exact hstr s
      | arr xs =>
        refine harr xs (fun x hx => ihn x ?_)
        have h1 := List.sizeOf_lt_of_mem hx
        simp only [Json.arr.sizeOf_spec] at hle
        omega
      | obj kvs =>
        refine hobj kvs (fun p hp => ihn p.2 ?_)
        have h1 := List.sizeOf_lt_of_mem hp
        have h2 : sizeOf p.2 < sizeOf p := by
          obtain ⟨a, b⟩ := p
          simp only [Prod.mk.sizeOf_spec]
          omega
        simp only [Json.obj.sizeOf_spec] at hle
        omega
  exact fun j => key (sizeOf j) j le_rfl

lemma strLitL_length (s : String) :
    (strLitL s).length = 2 + (escapeL s.data).length := by
  simp [strLitL]
  omega

lemma weight_le : ∀ j : Json, weight j + 1 ≤ 2 * (dumpsL j).length := by
  have auxI : ∀ l : List Json,
      (∀ x ∈ l, weight x + 1 ≤ 2 * (dumpsL x).length) →
      weightItems l + 1 ≤ 2 * (dumpsItems l).length + 2 := by
    intro l
    induction l with
    | nil => simp [weightItems, dumpsItems]
    | cons x t iht =>
      intro hm
      cases t with
      | nil =>
        have := hm x (List.mem_cons_self _ _)
        simp only [weightItems, dumpsItems]
        omega
      | cons y ys =>
        have h1 := hm x (List.mem_cons_self _ _)
        have h2 := iht (fun z hz => hm z (List.mem_cons_of_mem _ hz))
        simp only [weightItems] at h2 ⊢
        simp only [dumpsItems, List.length_append, List.length_cons]
        omega
  have auxM : ∀ l : List (String × Json),
      (∀ p ∈ l, weight p.2 + 1 ≤ 2 * (dumpsL p.2).length) →
      weightMembers l + 1 ≤ 2 * (dumpsMembers l).length + 2 := by
    intro l
    induction l with
    | nil => simp [weightMembers, dumpsMembers]
    | cons p t iht =>
      obtain ⟨k, v⟩ := p
      intro hm
      cases t with
      | nil =>
        have h1 : weight v + 1 ≤ 2 * (dumpsL v).length :=
          hm (k, v) (List.mem_cons_self _ _)
        simp only [weightMembers, dumpsMembers, List.length_append,
          List.length_cons, strLitL_length]
        omega
      | cons q qs =>
        have h1 : weight v + 1 ≤ 2 * (dumpsL v).length :=
          hm (k, v) (List.mem_cons_self _ _)
        have h2 := iht (fun z hz => hm z (List.mem_cons_of_mem _ hz))
        simp only [weightMembers] at h2 ⊢
        simp only [dumpsMembers, List.length_append, List.length_cons,
          strLitL_length]
        omega
  intro j
  induction j using Json.rec_mem with
  | hnull => simp [weight, dumpsL]
  | hbool b => cases b <;> simp [weight, dumpsL]
  | hnum n =>
    have h1 : 0 < (natDigits n).length :=
      List.length_pos.mpr (natDigits_ne_nil n)
    simp only [weight, dumpsL]
    omega
  | hstr s =>
    simp only [weight, dumpsL, strLitL_length]
    omega
  | harr xs hmem =>
    cases xs with
    | nil => simp [weight, weightItems, dumpsL]
    | cons x t =>
      have := auxI (x :: t) hmem
      simp only [weight, dumpsL, List.length_cons, List.length_append]
      omega
  | hobj kvs hmem =>
    cases kvs with
    | nil => simp [weight, weightMembers, dumpsL]
    | cons p t =>
      have := auxM (p :: t) hmem
      simp only [weight, dumpsL, List.length_cons, List.length_append]
      omega

/-- `json.loads` inverts `json.dumps`: the parser recovers exactly the
serialized value. -/
theorem parse_dumps (j : Json) : parse (dumps j) = some j := by
  have hb := weight_le j
  have hw : weight j ≤ 2 * (dumpsL j).length + 4 := by omega
  have hp := (parse_ok (2 * (dumpsL j).length + 4)).1 j [] hw rfl
  rw [List.append_nil] at hp
  simp only [parse, dumps]
  rw [hp]
  simp [skipWs]

/-! ## The message envelope layer (`monitoring_service/messages/message.py`) -/

/-- Errors raised by the inbound path: schema violations
(`jsonschema.validate`), unknown type tags (the deserializer dispatch),
JSON decoding failures (`json.loads`) and missing dictionary keys. -/
inductive DeserializeError where
  | SchemaError : String → DeserializeError
  | UnknownTypeError : Json → DeserializeError
  | JSONDecodeError : DeserializeError
  | KeyError : String → DeserializeError

/-- `Message.sign_data`: ignores both the private key and the payload and
returns the fixed placeholder string. -/
def sign_data (private_key : String) (data : String) : String :=
  "0x1111111111111111111111111111111"

/-- Modelled from the spec: `privkey_to_addr` is imported from
`monitoring_service.utils`, which is not among the sources.  Per the spec
(`identity_of`), it is a pure, deterministic derivation of a stable
address string from the signing secret; a fixed injective encoding
represents it. -/
def privkey_to_addr (private_key : String) : String :=
  "0xaddr:" ++ private_key

/-- A message instance.  `_type` models the `_type` attribute set by
`Message.__init__` (`None` at first); `body` models the variant-specific
fields that `serialize_data` returns (concrete variants are not among the
sources; per the spec the Body is an open-ended mapping owned by the
variant); `header` models the `header` attribute that
`Message.deserialize` attaches. -/
structure Message where
  _type : Json
  body : List (String × Json)
  header : Option Json

/-- `Message.__init__`: a fresh instance has `self._type = None`. -/
def Message.init : Message :=
  { _type := Json.null, body := [], header := none }

/-- The `type` property getter. -/
def Message.type (m : Message) : Json := m._type

/-- The `type` property setter: `assert isinstance(self._type, str)` —
the assertion tests the currently stored value, not the incoming one —
then stores the new value.  `none` models an `AssertionError`. -/
def Message.type_setter (m : Message) (value : Json) : Option Message :=
  if isStr m._type then some { m with _type := value } else none

/-- `serialize_data`, as implemented by a concrete variant (modelled from
the spec: the variants are not among the sources; each returns its Body
mapping as a dict). -/
def Message.serialize_data (m : Message) : Json := Json.obj m.body

/-- `Message.assemble_message`: asserts that the discriminant is a string,
then builds the inner object with header fields `type`, `timestamp`,
`sender` (in that order, `sender` still `None`) and the serialized body.
`time.time()` is passed in as `now`. -/
def Message.assemble_message (m : Message) (now : Nat) : Option Json :=
  match m._type with
  | Json.str t =>
    some (Json.obj [
      ("header", Json.obj [
        ("type", Json.str t),
        ("timestamp", Json.num now),
        ("sender", Json.null)]),
      ("body", m.serialize_data)])
  | _ => none

/-- Nested dict assignment `d[k1][k2] = v`, as in
`msg_data['header']['sender'] = privkey_to_addr(private_key)`: fails
unless `d` is a dict with a dict under `k1`. -/
def jsonSet2 (j : Json) (k1 k2 : String) (v : Json) : Option Json :=
  match j with
  | Json.obj kvs =>
    match lookupLast kvs k1 with
    | some (Json.obj inner) =>
      some (Json.obj (dictSet kvs k1 (Json.obj (dictSet inner k2 v))))
    | _ => none
  | _ => none

/-- `Message.serialize_full`: assemble, fill in `header.sender` from the
private key, serialize the inner object with `json.dumps`, and wrap it in
the outer envelope `{'signature': sign_data(...), 'data': msg_data}` —
the `data` entry is the very string that was passed to `sign_data`. -/
def Message.serialize_full (m : Message) (private_key : String) (now : Nat) :
    Option String :=
  match m.assemble_message now with
  | none => none
  | some msgData0 =>
    match jsonSet2 msgData0 "header" "sender"
        (Json.str (privkey_to_addr private_key)) with
    | none => none
    | some msgData =>
      some (dumps (Json.obj [
        ("signature", Json.str (sign_data private_key (dumps msgData))),
        ("data", Json.str (dumps msgData))]))

/-- Modelled from the spec: `ENVELOPE_SCHEMA` with `jsonschema.validate`
(`monitoring_service.json_schema` is not among the sources).  Per the
spec, the outer value must be an object with exactly the keys `signature`
and `data`, both strings; the first violation is reported as a
`SchemaError` naming what failed. -/
def validate_envelope (j : Json) : Except DeserializeError Unit :=
  match j with
  | Json.obj kvs =>
    match lookupLast kvs "signature" with
    | none => .error (.SchemaError "signature")
    | some sv =>
      if isStr sv then
        match lookupLast kvs "data" with
        | none => .error (.SchemaError "data")
        | some dv =>
          if isStr dv then
            if kvs.all (fun p => p.1 = "signature" || p.1 = "data") then .ok ()
            else .error (.SchemaError "additionalProperties")
          else .error (.SchemaError "data")
      else .error (.SchemaError "signature")
  | _ => .error (.SchemaError "object")

/-- The Type Registry: a table from type tags to body decoders (modelled
from the spec: `monitoring_service.messages.deserializer` is not among
the sources). -/
abbrev Registry : Type := List (String × (Json → Message))

/-- `resolve` of the Type Registry: a pure lookup. -/
def resolve (registry : Registry) (tag : String) : Option (Json → Message) :=
  lookupLast registry tag

/-- Modelled from the spec: the `deserialize(json_data)` helper of
`monitoring_service.messages.deserializer` (not among the sources).  Per
the spec: read `header.type`, resolve it in the Type Registry — failing
with `UnknownTypeError` on a miss — and invoke the resolved decoder on
`body`. -/
def deserializeDispatch (registry : Registry) (json_data : Json) :
    Except DeserializeError Message :=
  match jsonGet json_data "header" with
  | none => .error (.KeyError "header")
  | some hdr =>
    match jsonGet hdr "type" with
    | none => .error (.KeyError "type")
    | some (Json.str tag) =>
      match resolve registry tag with
      | none => .error (.UnknownTypeError (Json.str tag))
      | some decoder =>
        match jsonGet json_data "body" with
        | none => .error (.KeyError "body")
        | some body => .ok (decoder body)
    | some other => .error (.UnknownTypeError other)

/-- The `isinstance(data, str)` branch at the top of `Message.deserialize`:
raw wire strings go through `json.loads`, already-parsed structured values
pass through unchanged. -/
def loadJson : String ⊕ Json → Option Json
  | .inl s => parse s
  | .inr j => some j

/-- `Message.deserialize`: load the outer value, validate it against the
envelope schema, parse the inner `data` string, dispatch on the registered
type, and attach the parsed header to the reconstructed instance
(`cls.header = json_data['header']`). -/
def Message.deserialize (registry : Registry) (data : String ⊕ Json) :
    Except DeserializeError Message :=
  match loadJson data with
  | none => .error .JSONDecodeError
  | some json_message =>
    match validate_envelope json_message with
    | .error e => .error e
    | .ok _ =>
      match jsonGet json_message "data" with
      | some (Json.str ds) =>
        match parse ds with
        | none => .error .JSONDecodeError
        | some json_data =>
          match deserializeDispatch registry json_data with
          | .error e => .error e
          | .ok cls =>
            match jsonGet json_data "header" with
            | none => .error (.KeyError "header")
            | some h => .ok { cls with header := some h }
      | _ => .error (.KeyError "data")


/-! ## Computation lemmas for the envelope layer -/

/-- The inner `{header, body}` object that `serialize_full` serializes and
signs, after `sender` has been filled in. -/
def assembledInner (m : Message) (private_key : String) (now : Nat)
    (t : String) : Json :=
  Json.obj [
    ("header", Json.obj [
      ("type", Json.str t),
      ("timestamp", Json.num now),
      ("sender", Json.str (privkey_to_addr private_key))]),
    ("body", Json.obj m.body)]

lemma jsonGet_obj (kvs : List (String × Json)) (k : String) :
    jsonGet (Json.obj kvs) k = lookupLast kvs k := rfl

lemma serialize_full_eq (m : Message) (pk : String) (now : Nat) (t : String)
    (ht : m._type = Json.str t) :
    m.serialize_full pk now = some (dumps (Json.obj [
      ("signature", Json.str (sign_data pk (dumps (assembledInner m pk now t)))),
      ("data", Json.str (dumps (assembledInner m pk now t)))])) := by
  unfold Message.serialize_full Message.assemble_message
  rw [ht]
  simp +decide [jsonSet2, lookupLast, dictSet, Message.serialize_data,
    assembledInner]

/-! ## Demonstration data used by the witnesses -/

/-- The `PathsRequest` body of the spec's concrete scenario. -/
def pathsRequestBody : List (String × Json) :=
  [("source", Json.str "0xAAAA"), ("target", Json.str "0xBBBB")]

/-- A populated `PathsRequest` message instance. -/
def pathsRequestMsg : Message :=
  { _type := Json.str "PathsRequest", body := pathsRequestBody, header := none }

/-- A decoder for the `PathsRequest` variant: rebuilds the instance from
the decoded body fields. -/
def pathsRequestDecoder : Json → Message := fun b =>
  { _type := Json.str "PathsRequest",
    body := match b with | Json.obj kvs => kvs | _ => [],
    header := none }

/-- A registry holding exactly the `PathsRequest` variant. -/
def demoRegistry : Registry := [("PathsRequest", pathsRequestDecoder)]

/-- An inner object with an unregistered type tag `Ping`. -/
def pingInner : Json :=
  Json.obj [("header", Json.obj [("type", Json.str "Ping")]),
    ("body", Json.obj [])]

/-! ## The claims -/

/-- C1: the claimed tamper sensitivity does not hold of this code:
`sign_data` ignores the payload entirely (it is the same string for every
`data`), so no verification function whatsoever can both accept the stored
`signature` on the stored `data` and reject it on a tampered `data` — the
tampered payload carries a byte-identical signature. -/
theorem claim_C1 :
    (∀ pk d d', sign_data pk d = sign_data pk d') ∧
    ¬∃ verify : String → String → Bool,
      ∀ pk d, verify (sign_data pk d) d = true ∧
        ∀ d', d' ≠ d → verify (sign_data pk d) d' = false := by
  constructor
  · intro pk d d'
    rfl
  · rintro ⟨verify, hv⟩
    have h1 := (hv "k" "a").2 "b" (by decide)
    have h2 := (hv "k" "b").1
    rw [show sign_data "k" "a" = sign_data "k" "b" from rfl, h2] at h1
    cases h1

/-- C2: `sign_data` is a constant function: any two invocations agree, and
the value is the fixed string `0x1111111111111111111111111111111`,
independent of the secret and the payload. -/
theorem claim_C2 :
    ∀ pk1 d1 pk2 d2 : String, sign_data pk1 d1 = sign_data pk2 d2 ∧
      sign_data pk1 d1 = "0x1111111111111111111111111111111" :=
  fun _ _ _ _ => ⟨rfl, rfl⟩

/-- C3: round trip — for a message with a string discriminant whose
decoder is registered and rebuilds the body fields, deserializing the
output of `serialize_full` yields a message with the same body fields and
an attached header whose `type` is the discriminant. -/
theorem claim_C3 (registry : Registry) (m : Message) (t pk : String)
    (now : Nat) (d : Json → Message)
    (htype : m._type = Json.str t)
    (hreg : resolve registry t = some d)
    (hdec : (d (Json.obj m.body)).body = m.body) :
    ∃ s msg, m.serialize_full pk now = some s ∧
      Message.deserialize registry (.inl s) = .ok msg ∧
      msg.body = m.body ∧
      ∃ h, msg.header = some h ∧ jsonGet h "type" = some (Json.str t) := by
  refine ⟨dumps (Json.obj [
      ("signature", Json.str (sign_data pk (dumps (assembledInner m pk now t)))),
      ("data", Json.str (dumps (assembledInner m pk now t)))]),
    { d (Json.obj m.body) with header := some (Json.obj [
        ("type", Json.str t),
        ("timestamp", Json.num now),
        ("sender", Json.str (privkey_to_addr pk))]) },
    serialize_full_eq m pk now t htype, ?_, by simp [hdec], ?_⟩
  · simp only [Message.deserialize, loadJson]
    rw [parse_dumps]
    simp +decide [validate_envelope, lookupLast, isStr, jsonGet_obj]
    rw [parse_dumps]
    simp +decide [deserializeDispatch, jsonGet_obj, assembledInner,
      lookupLast, hreg]
  · refine ⟨_, rfl, ?_⟩
    simp +decide [jsonGet, lookupLast]

/-- C3 witness: the spec's concrete `PathsRequest` scenario. -/
theorem claim_C3_witness :
    ∃ s msg, pathsRequestMsg.serialize_full "secret" 1700000000 = some s ∧
      Message.deserialize demoRegistry (.inl s) = .ok msg ∧
      msg.body = pathsRequestMsg.body ∧
      ∃ h, msg.header = some h ∧
        jsonGet h "type" = some (Json.str "PathsRequest") :=
  claim_C3 demoRegistry pathsRequestMsg "PathsRequest" "secret" 1700000000
    pathsRequestDecoder rfl rfl rfl

/-- C4: an outer object missing `signature`, missing `data`, or carrying a
non-string `signature` makes `deserialize` fail with a `SchemaError`, and
the error does not depend on the registry — no registry lookup and no
decoder is ever consulted. -/
theorem claim_C4 (kvs : List (String × Json))
    (h : lookupLast kvs "signature" = none ∨ lookupLast kvs "data" = none ∨
      ∃ v, lookupLast kvs "signature" = some v ∧ isStr v = false) :
    ∃ k, ∀ registry : Registry,
      Message.deserialize registry (.inr (Json.obj kvs)) =
        .error (.SchemaError k) := by
  have hval : ∃ k, validate_envelope (Json.obj kvs) =
      .error (.SchemaError k) := by
    rcases h with h | h | ⟨v, hv, hnv⟩
    · exact ⟨"signature", by simp [validate_envelope, h]⟩
    · cases hsig : lookupLast kvs "signature" with
      | none => exact ⟨"signature", by simp [validate_envelope, hsig]⟩
      | some sv =>
        cases hs : isStr sv with
        | false => exact ⟨"signature", by simp [validate_envelope, hsig, hs]⟩
        | true => exact ⟨"data", by simp [validate_envelope, hsig, hs, h]⟩
    · exact ⟨"signature", by simp [validate_envelope, hv, hnv]⟩
  obtain ⟨k, hk⟩ := hval
  exact ⟨k, fun registry => by simp [Message.deserialize, loadJson, hk]⟩

/-- C4 witness: the empty outer object (both keys missing). -/
theorem claim_C4_witness :
    ∃ k, ∀ registry : Registry,
      Message.deserialize registry (.inr (Json.obj [])) =
        .error (.SchemaError k) :=
  claim_C4 [] (Or.inl rfl)

/-- C5: a schema-valid envelope whose inner `header.type` is a string with
no registered decoder makes `deserialize` fail with exactly
`UnknownTypeError` for that tag. -/
theorem claim_C5 (registry : Registry) (kvs : List (String × Json))
    (ds : String) (jd hdr : Json) (tag : String)
    (hvalid : validate_envelope (Json.obj kvs) = .ok ())
    (hds : lookupLast kvs "data" = some (Json.str ds))
    (hparse : parse ds = some jd)
    (hh : jsonGet jd "header" = some hdr)
    (ht : jsonGet hdr "type" = some (Json.str tag))
    (hmiss : resolve registry tag = none) :
    Message.deserialize registry (.inr (Json.obj kvs)) =
      .error (.UnknownTypeError (Json.str tag)) := by
  simp [Message.deserialize, loadJson, hvalid, jsonGet_obj, hds, hparse,
    deserializeDispatch, hh, ht, hmiss]

/-- C5 witness: an envelope whose inner type tag is the unregistered
`Ping`, against the empty registry. -/
theorem claim_C5_witness :
    Message.deserialize [] (.inr (Json.obj
      [("signature", Json.str "0x00"), ("data", Json.str (dumps pingInner))])) =
      .error (.UnknownTypeError (Json.str "Ping")) :=
  claim_C5 [] _ (dumps pingInner) pingInner
    (Json.obj [("type", Json.str "Ping")]) "Ping" rfl rfl
    (parse_dumps pingInner) rfl rfl rfl

/-- C6: `serialize_full` produces the signed outer envelope whose `data`
parses to an inner object with `header.type` the discriminant,
`header.sender` the identity derived from the private key, and `body` the
value of `serialize_data`. -/
theorem claim_C6 (m : Message) (pk : String) (now : Nat) (t : String)
    (htype : m._type = Json.str t) :
    ∃ dataStr inner hdr,
      m.serialize_full pk now = some (dumps (Json.obj [
        ("signature", Json.str (sign_data pk dataStr)),
        ("data", Json.str dataStr)])) ∧
      parse dataStr = some inner ∧
      jsonGet inner "header" = some hdr ∧
      jsonGet hdr "type" = some (Json.str t) ∧
      jsonGet hdr "sender" = some (Json.str (privkey_to_addr pk)) ∧
      jsonGet inner "body" = some m.serialize_data := by
  refine ⟨dumps (assembledInner m pk now t), assembledInner m pk now t,
    Json.obj [("type", Json.str t), ("timestamp", Json.num now),
      ("sender", Json.str (privkey_to_addr pk))],
    serialize_full_eq m pk now t htype, parse_dumps _, ?_, ?_, ?_, ?_⟩ <;>
    simp +decide [assembledInner, jsonGet, lookupLast, Message.serialize_data]

/-- C6 witness: the `PathsRequest` instance. -/
theorem claim_C6_witness :
    ∃ dataStr inner hdr,
      pathsRequestMsg.serialize_full "S" 1700000000 = some (dumps (Json.obj [
        ("signature", Json.str (sign_data "S" dataStr)),
        ("data", Json.str dataStr)])) ∧
      parse dataStr = some inner ∧
      jsonGet inner "header" = some hdr ∧
      jsonGet hdr "type" = some (Json.str "PathsRequest") ∧
      jsonGet hdr "sender" = some (Json.str (privkey_to_addr "S")) ∧
      jsonGet inner "body" = some pathsRequestMsg.serialize_data :=
  claim_C6 pathsRequestMsg "S" 1700000000 "PathsRequest" rfl

/-- C7: the wire string returned by `serialize_full` parses to an envelope
whose stored `data` entry is the very string over which the stored
`signature` was computed — the signed bytes and the stored bytes are one
and the same string, not a re-serialization. -/
theorem claim_C7 (m : Message) (pk : String) (now : Nat)
    (h : ∃ t, m._type = Json.str t) :
    ∃ s dataStr, m.serialize_full pk now = some s ∧
      parse s = some (Json.obj [
        ("signature", Json.str (sign_data pk dataStr)),
        ("data", Json.str dataStr)]) := by
  obtain ⟨t, ht⟩ := h
  exact ⟨_, dumps (assembledInner m pk now t),
    serialize_full_eq m pk now t ht, parse_dumps _⟩

/-- C7 witness: the `PathsRequest` instance. -/
theorem claim_C7_witness :
    ∃ s dataStr, pathsRequestMsg.serialize_full "S" 2 = some s ∧
      parse s = some (Json.obj [
        ("signature", Json.str (sign_data "S" dataStr)),
        ("data", Json.str dataStr)]) :=
  claim_C7 pathsRequestMsg "S" 2 ⟨"PathsRequest", rfl⟩

/-- C8: the claim fails on this code.  The setter asserts
`isinstance(self._type, str)` — the previously stored value — instead of
testing the incoming value: assigning the valid string `"Ping"` to a
fresh message fails the assertion, while assigning the non-string `42`
succeeds once `_type` already holds a string. -/
theorem claim_C8_divergence :
    Message.init.type_setter (Json.str "Ping") = none ∧
    ({ Message.init with _type := Json.str "A" }.type_setter (Json.num 42) =
      some { Message.init with _type := Json.num 42 }) :=
  ⟨rfl, rfl⟩

/-- C9: on a freshly constructed message (`_type = None`), every
assignment through the `type` setter fails its assertion — even a valid
string — because the assertion tests the stored value, not the assigned
one. -/
theorem claim_C9 : ∀ value : Json, Message.init.type_setter value = none :=
  fun _ => rfl

/-- C10: whenever `deserialize` succeeds, the header attached to the
returned message is exactly the `header` member parsed out of the inner
`data` object, carried through verbatim (whatever the decoder produced is
overwritten). -/
theorem claim_C10 (registry : Registry) (input : String ⊕ Json)
    (msg : Message)
    (h : Message.deserialize registry input = .ok msg) :
    ∃ jm ds jd hdr, loadJson input = some jm ∧
      jsonGet jm "data" = some (Json.str ds) ∧
      parse ds = some jd ∧
      jsonGet jd "header" = some hdr ∧
      msg.header = some hdr := by
  unfold Message.deserialize at h
  cases hjm : loadJson input with
  | none => rw [hjm] at h; cases h
  | some jm =>
    rw [hjm] at h
    dsimp only at h
    cases hv : validate_envelope jm with
    | error e => rw [hv] at h; cases h
    | ok u =>
      rw [hv] at h
      dsimp only at h
      cases hd : jsonGet jm "data" with
      | none => rw [hd] at h; cases h
      | some dv =>
        cases dv with
        | null => rw [hd] at h; cases h
        | bool b => rw [hd] at h; cases h
        | num n => rw [hd] at h; cases h
        | arr xs => rw [hd] at h; cases h
        | obj kvs => rw [hd] at h; cases h
        | str ds =>
          rw [hd] at h
          dsimp only at h
          cases hp : parse ds with
          | none => rw [hp] at h; cases h
          | some jd =>
            rw [hp] at h
            dsimp only at h
            cases hdp : deserializeDispatch registry jd with
            | error e => rw [hdp] at h; cases h
            | ok cls =>
              rw [hdp] at h
              dsimp only at h
              cases hh : jsonGet jd "header" with
              | none => rw [hh] at h; cases h
              | some hd2 =>
                rw [hh] at h
                dsimp only at h
                cases h
                exact ⟨jm, ds, jd, hd2, rfl, hd, hp, hh, rfl⟩

/-- The reconstructed message of the witness scenario: the `Ping` decoder
output with the parsed header attached. -/
def pingMsg : Message :=
  { _type := Json.str "Ping", body := [],
    header := some (Json.obj [("type", Json.str "Ping")]) }

/-- A registry that decodes `Ping`. -/
def pingRegistry : Registry :=
  [("Ping", fun _ => { _type := Json.str "Ping", body := [], header := none })]

/-- A well-formed outer envelope whose `data` is the serialized `Ping`
inner object. -/
def pingOuter : Json :=
  Json.obj [("signature", Json.str "0x00"),
    ("data", Json.str (dumps pingInner))]

/-- C10 witness: a successful disassembly of a `Ping`-tagged envelope
against a registry that decodes it. -/
theorem claim_C10_witness :
    ∃ jm ds jd hdr,
      loadJson (.inr pingOuter) = some jm ∧
      jsonGet jm "data" = some (Json.str ds) ∧
      parse ds = some jd ∧
      jsonGet jd "header" = some hdr ∧
      pingMsg.header = some hdr :=
  claim_C10 pingRegistry (.inr pingOuter) pingMsg rfl

end MonitoringService
